import Mathlib

/-!
Verification of the PickShot asset pipeline and rating persistence engine.

The definitions below are a shallow embedding of the main-process code:
the `better-sqlite3` ratings store (`src/main/db/ratingsStore.ts`), the
`exiftool-vendored` metadata bridge (`src/main/metadata/ratingMetadata.ts`),
and the thumbnail/transcode scheduling in `src/main/index.ts`.  The SQL
table keyed by primary key `id` is modelled as a partial map from ids to
rows; the filesystem is modelled as a partial map from paths to stat
results (where `none` models a stat failure); JavaScript numbers carrying
ratings are modelled as rationals and epoch-millisecond timestamps as
integers.
-/

/-- Row of the `ratings` table / `RatingCacheEntry` interface
(ratingsStore.ts): `rating`, `updated_at`, nullable `source_modified_at`. -/
structure RatingCacheEntry where
  rating : ℚ
  updatedAt : Int
  sourceModifiedAt : Option Int
deriving Repr, DecidableEq

/-- The `ratings` SQLite table, keyed by its primary key `id`. -/
def RatingsDb := String → Option RatingCacheEntry

/-- The freshly created table: no rows. -/
def emptyRatingsDb : RatingsDb := fun _ => none

/-- `getAllRatings` (ratingsStore.ts): returns every row as a map from id
to its `RatingCacheEntry`. -/
def getAllRatings (db : RatingsDb) : String → Option RatingCacheEntry := db

/-- `upsertRating(id, rating, sourceModifiedAt)` (ratingsStore.ts):
`INSERT ... ON CONFLICT (id) DO UPDATE` fully replaces the row for `id`,
stamping `updated_at` with the current time `now`. -/
def upsertRating (db : RatingsDb) (id : String) (rating : ℚ)
    (sourceModifiedAt : Option Int) (now : Int) : RatingsDb :=
  fun k => if k = id then some ⟨rating, now, sourceModifiedAt⟩ else db k

/-- `deleteRating(id)` (ratingsStore.ts): `DELETE FROM ratings WHERE id = ?`.
Deleting an absent id is a no-op. -/
def deleteRating (db : RatingsDb) (id : String) : RatingsDb :=
  fun k => if k = id then none else db k

/-- `renameRating(oldId, newId)` (ratingsStore.ts):
`UPDATE ratings SET id = ? WHERE id = ?`.  When `oldId` has no row the
statement matches nothing; when `oldId = newId` the update is the
identity; when `newId` already has a row the update would duplicate the
primary key and `better-sqlite3` raises a `UNIQUE constraint` error,
leaving the table unchanged. -/
def renameRating (db : RatingsDb) (oldId newId : String) :
    Except String RatingsDb :=
  match db oldId with
  | none => .ok db
  | some entry =>
    if oldId = newId then .ok db
    else if (db newId).isSome then .error "UNIQUE constraint failed: ratings.id"
    else .ok (fun k =>
      if k = newId then some entry else if k = oldId then none else db k)

/-- Whether `renameRating` ran without raising. -/
def renameOk (db : RatingsDb) (oldId newId : String) : Bool :=
  match renameRating db oldId newId with
  | .ok _ => true
  | .error _ => false

/-- The table contents after `renameRating` (on an error the statement has
no effect on the table). -/
def renameResultDb (db : RatingsDb) (oldId newId : String) : RatingsDb :=
  match renameRating db oldId newId with
  | .ok db2 => db2
  | .error _ => db

/-- Result payload of the `ratings:update` IPC handler. -/
structure RatingUpdateResult where
  success : Bool
deriving Repr, DecidableEq

/-- Value reaching the better-sqlite3 binder for the
`source_modified_at` named parameter of `upsertRating`: a number,
JavaScript `null`, or JavaScript `undefined`. -/
inductive SqlBind
  | num (n : Int)
  | nullv
  | undef
deriving Repr, DecidableEq

/-- The `.run` step of `upsertRating` as better-sqlite3 executes it:
numbers bind their value and `null` binds SQL NULL, but an `undefined`
binding is rejected with a TypeError before the statement runs, leaving
the table untouched. -/
def upsertRatingRun (db : RatingsDb) (id : String) (rating : ℚ)
    (sourceModifiedAt : SqlBind) (now : Int) : Except String RatingsDb :=
  match sourceModifiedAt with
  | .num n => .ok (upsertRating db id rating (some n) now)
  | .nullv => .ok (upsertRating db id rating none now)
  | .undef =>
    .error "SQLite3 can only bind numbers, strings, bigints, buffers, and null"

/-- The `ratings:update` IPC handler (index.ts lines 1691-1715): rating
above zero calls the three-parameter `upsertRating` with only two
arguments, so at runtime `sourceModifiedAt` is `undefined` (the
TypeScript arity error is erased by the esbuild-based build);
better-sqlite3 rejects the `undefined` binding, the thrown TypeError is
caught, and the handler returns success false with the store unchanged.
Anything else deletes the row and succeeds. -/
def updateRatingHandler (db : RatingsDb) (id : String) (rating : ℚ)
    (now : Int) : RatingsDb × RatingUpdateResult :=
  if rating > 0 then
    match upsertRatingRun db id rating .undef now with
    | .ok db2 => (db2, ⟨true⟩)
    | .error _ => (db, ⟨false⟩)
  else (deleteRating db id, ⟨true⟩)

/-! ### Filesystem and cache freshness -/

/-- Result of a successful `stat` call: file size in bytes and
modification time in epoch milliseconds. -/
structure FileStat where
  size : Nat
  mtimeMs : Int
deriving Repr, DecidableEq

/-- The filesystem as seen through `stat`: `none` models a failing
`stat` call (missing file, permission error, ...). -/
def FS := String → Option FileStat

/-- `isCacheEntryFresh(targetPath, sourceModifiedAt)` (index.ts lines
993-1006): stat the cached file; a failing stat is not fresh; an empty
file is not fresh; otherwise fresh iff the cache file's mtime is at least
the source's modification time. -/
def isCacheEntryFresh (fs : FS) (targetPath : String)
    (sourceModifiedAt : Int) : Bool :=
  match fs targetPath with
  | none => false
  | some info =>
    if info.size ≤ 0 then false
    else decide (sourceModifiedAt ≤ info.mtimeMs)

/-! ### Claims C1, C2, C9 -/

/-- C1 (code bug): at the failing input updateRating("p1", 4) the
handler's two-argument `upsertRating` call leaves `sourceModifiedAt`
undefined, better-sqlite3 rejects the binding, and the handler returns
success false with the store unchanged — against the claim's promise of
success and of `getAllRatings` reflecting the rating; only the rating-0
delete branch behaves as the claim states. -/
theorem updateRating_claim_code_bug :
    (updateRatingHandler emptyRatingsDb "p1" 4 100).2.success = false ∧
    getAllRatings (updateRatingHandler emptyRatingsDb "p1" 4 100).1 "p1" = none ∧
    upsertRatingRun emptyRatingsDb "p1" 4 .undef 100 =
      .error "SQLite3 can only bind numbers, strings, bigints, buffers, and null" ∧
    upsertRatingRun emptyRatingsDb "p1" 4 .nullv 100 =
      .ok (upsertRating emptyRatingsDb "p1" 4 none 100) ∧
    (updateRatingHandler emptyRatingsDb "p1" 0 100).2.success = true ∧
    getAllRatings (updateRatingHandler emptyRatingsDb "p1" 0 100).1 "p1" = none := by
  refine ⟨by decide, by decide, rfl, rfl, by decide, by decide⟩

/-- C2: the freshness check returns true iff the cached path stats
successfully with non-zero size and a modification time at least the
source's; any stat failure yields not-fresh. -/
theorem isCacheEntryFresh_spec (fs : FS) (p : String) (t : Int) :
    (isCacheEntryFresh fs p t = true ↔
      ∃ info, fs p = some info ∧ info.size ≠ 0 ∧ t ≤ info.mtimeMs) ∧
    (fs p = none → isCacheEntryFresh fs p t = false) := by
  constructor
  · unfold isCacheEntryFresh
    cases h : fs p with
    | none => simp
    | some info =>
      by_cases hsz : info.size ≤ 0
      · simp only [hsz, if_true]
        constructor
        · intro hfalse; cases hfalse
        · rintro ⟨info2, hinfo2, hne, _⟩
          cases hinfo2
          omega
      · simp only [hsz, if_false]
        constructor
        · intro hd
          exact ⟨info, rfl, by omega, of_decide_eq_true hd⟩
        · rintro ⟨info2, hinfo2, _, hle⟩
          cases hinfo2
          exact decide_eq_true hle
  · intro hnone
    unfold isCacheEntryFresh
    rw [hnone]

/-- Witness for C2: a fresh concrete cache entry and a missing one. -/
def fsWitness : FS := fun p =>
  if p = "/cache/a-w320.webp" then some ⟨2048, 500⟩ else none

/-- Witness for C2 applied at a present and an absent path. -/
theorem isCacheEntryFresh_spec_witness :
    (isCacheEntryFresh fsWitness "/cache/a-w320.webp" 400 = true ↔
      ∃ info, fsWitness "/cache/a-w320.webp" = some info ∧ info.size ≠ 0 ∧
        (400:Int) ≤ info.mtimeMs) ∧
    (isCacheEntryFresh fsWitness "/missing" 400 = false) := by
  constructor
  · exact (isCacheEntryFresh_spec fsWitness "/cache/a-w320.webp" 400).1
  · exact (isCacheEntryFresh_spec fsWitness "/missing" 400).2 rfl

/-- Store used in the C9 counterexample: both "a" and "b" hold rows. -/
def renameCexDb : RatingsDb :=
  upsertRating (upsertRating emptyRatingsDb "a" 3 none 10) "b" 5 none 11

/-- C9 counterexample: when the new id already has a row, the
`UPDATE ratings SET id = ? WHERE id = ?` statement violates the primary
key and raises, leaving the table unchanged: "b" keeps its own entry and
"a" is still present, contradicting the claim as stated. -/
theorem renameRating_claim_counterexample :
    renameCexDb "a" = some ⟨3, 10, none⟩ ∧
    renameOk renameCexDb "a" "b" = false ∧
    renameResultDb renameCexDb "a" "b" "b" = some ⟨5, 11, none⟩ ∧
    renameResultDb renameCexDb "a" "b" "a" = some ⟨3, 10, none⟩ := by
  refine ⟨rfl, rfl, rfl, rfl⟩

/-- C9 (amended): when A has an entry, B is a different id, and B has no
entry, `renameRating A B` succeeds, maps B to exactly the entry A had,
removes A, and leaves every other id unchanged. -/
theorem renameRating_spec (db : RatingsDb) (a b : String)
    (e : RatingCacheEntry) (ha : db a = some e) (hne : a ≠ b)
    (hb : db b = none) :
    ∃ db2, renameRating db a b = .ok db2 ∧ db2 b = some e ∧ db2 a = none ∧
      ∀ k, k ≠ a → k ≠ b → db2 k = db k := by
  refine ⟨fun k => if k = b then some e else if k = a then none else db k, ?_, ?_, ?_, ?_⟩
  · unfold renameRating
    rw [ha]
    simp [hne, hb]
  · simp
  · simp [Ne.symm hne, hne]
  · intro k hka hkb
    simp [hka, hkb]

/-- Witness for C9's amended theorem at a concrete single-row store. -/
theorem renameRating_spec_witness :
    ∃ db2, renameRating (upsertRating emptyRatingsDb "a" 3 none 10) "a" "b" = .ok db2 ∧
      db2 "b" = some ⟨3, 10, none⟩ ∧ db2 "a" = none ∧
      ∀ k, k ≠ "a" → k ≠ "b" →
        db2 k = upsertRating emptyRatingsDb "a" 3 none 10 k := by
  exact renameRating_spec (upsertRating emptyRatingsDb "a" 3 none 10) "a" "b"
    ⟨3, 10, none⟩ rfl (by decide) rfl

/-! ### Metadata sync (ratingMetadata.ts) -/

/-- Prefix test on character lists (JS `String.prototype.startsWith`). -/
def listPrefixEq : List Char → List Char → Bool
  | [], _ => true
  | _ :: _, [] => false
  | a :: as, b :: bs => a = b && listPrefixEq as bs

/-- Substring containment on character lists (JS `String.prototype.includes`). -/
def listHasSub (pat : List Char) : List Char → Bool
  | [] => listPrefixEq pat []
  | c :: cs => listPrefixEq pat (c :: cs) || listHasSub pat cs

/-- JS `s.includes(pat)` on strings. -/
def strIncludes (s pat : String) : Bool := listHasSub pat.data s.data

/-- JS `String.prototype.toLowerCase` (the signature patterns searched
for are plain ASCII). -/
def strToLower (s : String) : String := ⟨s.data.map Char.toLower⟩

/-- `isMetadataTimeoutError` (ratingMetadata.ts lines 298-306): lowercase
the error message and look for the timeout / process-terminated
signatures. -/
def isMetadataTimeoutError (message : String) : Bool :=
  let normalized := strToLower message
  strIncludes normalized "process terminated before task completed" ||
  strIncludes normalized "task timeout" ||
  strIncludes normalized "waited "

/-- Module-level mutable state of ratingMetadata.ts: the enabled flag, the
`hasLoggedDisable` flag, and whether the `exiftool` handle is live. -/
structure MetadataState where
  metadataEnabled : Bool
  hasLoggedDisable : Bool
  exiftoolAlive : Bool
deriving Repr, DecidableEq

/-- Process start state: enabled, nothing logged, no tool spawned yet. -/
def metadataStartState : MetadataState :=
  ⟨true, false, false⟩

/-- `disableMetadata` (ratingMetadata.ts lines 228-250): no-op when
already disabled; otherwise clears the enabled flag, logs once, and tears
the exiftool process down. -/
def disableMetadata (s : MetadataState) : MetadataState :=
  if s.metadataEnabled = false then s
  else ⟨false, true, false⟩

/-- `isMetadataEnabled` (ratingMetadata.ts). -/
def isMetadataEnabled (s : MetadataState) : Bool := s.metadataEnabled

/-- `ensureExifTool` (ratingMetadata.ts lines 207-226): returns no worker
when disabled; otherwise reuses the live handle or constructs one.  A
constructor failure (oracle `initFails`) disables metadata.  The returned
Bool says whether a worker is available. -/
def ensureExifTool (s : MetadataState) (initFails : Bool) :
    MetadataState × Bool :=
  if s.metadataEnabled = false then (s, false)
  else if s.exiftoolAlive then (s, true)
  else if initFails then (disableMetadata s, false)
  else ({ s with exiftoolAlive := true }, true)

/-- JS value found in a metadata rating field, as relevant to
`coerceRating`: a finite number, a non-finite number, a non-empty string
parsing to a finite float, any other string, null/undefined, or a value
of any other type. -/
inductive RawTagValue
  | numFinite (q : ℚ)
  | numNonFinite
  | strFinite (q : ℚ)
  | strOther
  | absent
  | otherType
deriving Repr, DecidableEq

/-- JS `Math.round`: half-up rounding. -/
def jsRound (q : ℚ) : Int := Int.floor (q + 1/2)

/-- `clampRating(value)` (ratingMetadata.ts lines 256-259) on a finite
value: `Math.min(5, Math.max(0, Math.round(value)))`.  (The non-finite
guard of the source returns 0 and is vacuous on rationals.) -/
def clampRating (q : ℚ) : Int := min 5 (max 0 (jsRound q))

/-- `coerceRating(raw)` (ratingMetadata.ts lines 261-279): null and
non-finite / unparseable values give null; finite values above 5 are
treated as percentages and divided by 20; everything is clamped and
rounded by `clampRating`. -/
def coerceRating : RawTagValue → Option Int
  | .numFinite q => some (if q > 5 then clampRating (q / 20) else clampRating q)
  | .strFinite q => some (if q > 5 then clampRating (q / 20) else clampRating q)
  | _ => none

/-- The four rating fields `extractRating` consults, in order. -/
structure ExifTags where
  rating : RawTagValue
  xmpRating : RawTagValue
  xmpColonRating : RawTagValue
  ratingPercent : RawTagValue
deriving Repr, DecidableEq

/-- `extractRating(tags)` (ratingMetadata.ts lines 281-296): first
candidate that coerces to a number wins. -/
def extractRating (tags : ExifTags) : Option Int :=
  match coerceRating tags.rating with
  | some r => some r
  | none =>
    match coerceRating tags.xmpRating with
    | some r => some r
    | none =>
      match coerceRating tags.xmpColonRating with
      | some r => some r
      | none => coerceRating tags.ratingPercent

/-- Rating fields written by `writeRatingToMetadata`. -/
structure WrittenRating where
  rating : Int
  ratingPercent : Int
deriving Repr, DecidableEq

/-- Outcome of an exiftool call as observed by its caller: a value, or a
thrown error carrying a message. -/
inductive ToolResult (α : Type)
  | ok (value : α)
  | error (message : String)
deriving Repr, DecidableEq

/-- Metadata-bridge world: the module state plus the rating fields each
file's metadata currently holds (as last written). -/
structure MetadataWorld where
  state : MetadataState
  files : String → Option WrittenRating

/-- `readRatingFromMetadata(filePath)` (ratingMetadata.ts lines 336-358):
no-op returning null when no worker is available; on success extract the
rating from the tags the tool returned (`result` oracle); on a thrown
error, return null, and disable metadata unless the error is classified
as a timeout. -/
def readRatingFromMetadata (w : MetadataWorld) (initFails : Bool)
    (result : ToolResult ExifTags) : MetadataWorld × Option Int :=
  match ensureExifTool w.state initFails with
  | (s, hasWorker) =>
    if hasWorker = false then ({ w with state := s }, none)
    else
      match result with
      | .ok tags => ({ w with state := s }, extractRating tags)
      | .error msg =>
        if isMetadataTimeoutError msg then ({ w with state := s }, none)
        else ({ w with state := disableMetadata s }, none)

/-- Outcome of `writeRatingToMetadata` as seen by the caller. -/
inductive WriteOutcome
  | success
  | skippedSlow
  | skippedDisabled
  | failed (message : String)
deriving Repr, DecidableEq

/-- `writeRatingToMetadata(filePath, rating)` (ratingMetadata.ts lines
360-386): return early on a slow volume (oracle `slowVolume`) or when no
worker is available; otherwise write `Rating` = clamped rating and
`RatingPercent` = clamped rating × 20 (`result` oracle reports the tool
call's fate); a thrown error is rethrown, and disables metadata unless
classified as a timeout. -/
def writeRatingToMetadata (w : MetadataWorld) (filePath : String)
    (rating : ℚ) (slowVolume : Bool) (initFails : Bool)
    (result : ToolResult Unit) : MetadataWorld × WriteOutcome :=
  if slowVolume then (w, .skippedSlow)
  else
    match ensureExifTool w.state initFails with
    | (s, hasWorker) =>
      if hasWorker = false then ({ w with state := s }, .skippedDisabled)
      else
        let normalized := clampRating rating
        match result with
        | .ok _ =>
          ({ state := s,
             files := fun p =>
               if p = filePath then some ⟨normalized, normalized * 20⟩
               else w.files p }, .success)
        | .error msg =>
          if isMetadataTimeoutError msg then ({ w with state := s }, .failed msg)
          else ({ w with state := disableMetadata s }, .failed msg)

/-- A metadata read or write call together with its environment oracles. -/
inductive MetadataOp
  | read (initFails : Bool) (result : ToolResult ExifTags)
  | write (filePath : String) (rating : ℚ) (slowVolume : Bool)
      (initFails : Bool) (result : ToolResult Unit)

/-- State effect of one metadata call. -/
def runMetadataOp (w : MetadataWorld) : MetadataOp → MetadataWorld
  | .read i r => (readRatingFromMetadata w i r).1
  | .write p q sv i r => (writeRatingToMetadata w p q sv i r).1

/-- A call that reaches the tool and fails with a timeout-classified
error (as in the spec's always-timeout scenario). -/
def isTimeoutFailureOp : MetadataOp → Bool
  | .read i (.error m) => !i && isMetadataTimeoutError m
  | .write _ _ sv i (.error m) => !sv && !i && isMetadataTimeoutError m
  | _ => false

/-! ### Claims C3, C4, C5 -/

/-- One call that reaches the tool and fails with a timeout-classified
error leaves the breaker untouched. -/
theorem runMetadataOp_timeout_preserves (w : MetadataWorld) (op : MetadataOp)
    (hen : w.state.metadataEnabled = true) (hop : isTimeoutFailureOp op = true) :
    (runMetadataOp w op).state.metadataEnabled = true := by
  cases op with
  | read i r =>
    cases r with
    | ok v => simp [isTimeoutFailureOp] at hop
    | error m =>
      simp only [isTimeoutFailureOp, Bool.and_eq_true, Bool.not_eq_true'] at hop
      obtain ⟨hi, ht⟩ := hop
      subst hi
      by_cases halive : w.state.exiftoolAlive <;>
        simp [runMetadataOp, readRatingFromMetadata, ensureExifTool, hen, halive, ht]
  | write p q sv i r =>
    cases r with
    | ok v => simp [isTimeoutFailureOp] at hop
    | error m =>
      simp only [isTimeoutFailureOp, Bool.and_eq_true, Bool.not_eq_true'] at hop
      obtain ⟨⟨hsv, hi⟩, ht⟩ := hop
      subst hsv
      subst hi
      by_cases halive : w.state.exiftoolAlive <;>
        simp [runMetadataOp, writeRatingToMetadata, ensureExifTool, hen, halive, ht]

/-- Once disabled, no metadata call re-enables the integration. -/
theorem runMetadataOp_disabled_preserves (w : MetadataWorld) (op : MetadataOp)
    (hdis : w.state.metadataEnabled = false) :
    (runMetadataOp w op).state.metadataEnabled = false := by
  cases op with
  | read i r =>
    simp [runMetadataOp, readRatingFromMetadata, ensureExifTool, hdis]
  | write p q sv i r =>
    by_cases hsv : sv <;>
      simp [runMetadataOp, writeRatingToMetadata, ensureExifTool, hdis, hsv]

/-- C3: a failing metadata call disables sync iff its error is not
classified as a timeout; any sequence of timeout-classified failures
leaves sync enabled; and from a disabled state every further call leaves
sync disabled for the remainder of the run. -/
theorem metadata_breaker_spec :
    (∀ (w : MetadataWorld) (msg : String), w.state.metadataEnabled = true →
      ((readRatingFromMetadata w false (.error msg)).1.state.metadataEnabled = false ↔
        isMetadataTimeoutError msg = false)) ∧
    (∀ (w : MetadataWorld) (p : String) (q : ℚ) (msg : String),
      w.state.metadataEnabled = true →
      ((writeRatingToMetadata w p q false false (.error msg)).1.state.metadataEnabled = false ↔
        isMetadataTimeoutError msg = false)) ∧
    (∀ (w : MetadataWorld) (ops : List MetadataOp),
      w.state.metadataEnabled = true →
      (∀ op ∈ ops, isTimeoutFailureOp op = true) →
      (ops.foldl runMetadataOp w).state.metadataEnabled = true) ∧
    (∀ (w : MetadataWorld) (ops : List MetadataOp),
      w.state.metadataEnabled = false →
      (ops.foldl runMetadataOp w).state.metadataEnabled = false) := by
  refine ⟨?_, ?_, ?_, ?_⟩
  · intro w msg hen
    by_cases halive : w.state.exiftoolAlive <;>
      by_cases ht : isMetadataTimeoutError msg <;>
        simp [readRatingFromMetadata, ensureExifTool, disableMetadata, hen, halive, ht]
  · intro w p q msg hen
    by_cases halive : w.state.exiftoolAlive <;>
      by_cases ht : isMetadataTimeoutError msg <;>
        simp [writeRatingToMetadata, ensureExifTool, disableMetadata, hen, halive, ht]
  · intro w ops hen hall
    induction ops generalizing w with
    | nil => simpa using hen
    | cons op rest ih =>
      simp only [List.foldl_cons]
      exact ih (runMetadataOp w op)
        (runMetadataOp_timeout_preserves w op hen (hall op (List.mem_cons_self op rest)))
        (fun o ho => hall o (List.mem_cons_of_mem op ho))
  · intro w ops hdis
    induction ops generalizing w with
    | nil => simpa using hdis
    | cons op rest ih =>
      simp only [List.foldl_cons]
      exact ih (runMetadataOp w op) (runMetadataOp_disabled_preserves w op hdis)

/-- Metadata world at process start: breaker closed, no tool spawned. -/
def enabledWorld : MetadataWorld := ⟨metadataStartState, fun _ => none⟩

/-- Metadata world after the breaker has tripped. -/
def disabledWorld : MetadataWorld := ⟨⟨false, true, false⟩, fun _ => none⟩

/-- Witness for C3: a concrete non-timeout failure, a concrete
timeout-only run, and a concrete run from the disabled state. -/
theorem metadata_breaker_spec_witness :
    (((readRatingFromMetadata enabledWorld false
        (.error "exiftool failed to start")).1.state.metadataEnabled = false) ↔
      (isMetadataTimeoutError "exiftool failed to start" = false)) ∧
    ((List.foldl runMetadataOp enabledWorld
        [.read false (.error "Task timeout"), .read false (.error "Task timeout")]
      ).state.metadataEnabled = true) ∧
    ((List.foldl runMetadataOp disabledWorld
        [.write "/p.jpg" 3 false false (.ok ())]).state.metadataEnabled = false) := by
  refine ⟨metadata_breaker_spec.1 enabledWorld "exiftool failed to start" rfl,
    metadata_breaker_spec.2.2.1 enabledWorld _ rfl ?_,
    metadata_breaker_spec.2.2.2 disabledWorld _ rfl⟩
  intro op hop
  rw [List.mem_cons, List.mem_singleton] at hop
  rcases hop with h | h <;> subst h <;> rfl

/-- C4: the metadata-enabled flag is a one-way latch: no call transitions
it from disabled back to enabled; once disabled, reads return null and
leave the world untouched, writes leave every file untouched, the tool
handle stays down; and the disabling transition itself tears the tool
process down. -/
theorem metadata_latch_spec :
    (∀ (w : MetadataWorld) (op : MetadataOp), w.state.metadataEnabled = false →
      (runMetadataOp w op).state.metadataEnabled = false) ∧
    (∀ (w : MetadataWorld) (i : Bool) (r : ToolResult ExifTags),
      w.state.metadataEnabled = false → readRatingFromMetadata w i r = (w, none)) ∧
    (∀ (w : MetadataWorld) (p : String) (q : ℚ) (sv i : Bool)
      (r : ToolResult Unit), w.state.metadataEnabled = false →
      (writeRatingToMetadata w p q sv i r).1.files = w.files) ∧
    (∀ (w : MetadataWorld) (op : MetadataOp), w.state.metadataEnabled = false →
      w.state.exiftoolAlive = false →
      (runMetadataOp w op).state.exiftoolAlive = false) ∧
    (∀ s : MetadataState, s.metadataEnabled = true →
      (disableMetadata s).metadataEnabled = false ∧
      (disableMetadata s).exiftoolAlive = false) := by
  refine ⟨?_, ?_, ?_, ?_, ?_⟩
  · exact runMetadataOp_disabled_preserves
  · intro w i r hdis
    simp [readRatingFromMetadata, ensureExifTool, hdis]
  · intro w p q sv i r hdis
    by_cases hsv : sv <;>
      simp [writeRatingToMetadata, ensureExifTool, hdis, hsv]
  · intro w op hdis halive
    cases op with
    | read i r =>
      simp [runMetadataOp, readRatingFromMetadata, ensureExifTool, hdis, halive]
    | write p q sv i r =>
      by_cases hsv : sv <;>
        simp [runMetadataOp, writeRatingToMetadata, ensureExifTool, hdis, hsv, halive]
  · intro s hen
    simp [disableMetadata, hen]

/-- Witness for C4: concrete disabled world stays disabled and inert, and
the disable transition from the start state tears the tool down. -/
theorem metadata_latch_spec_witness :
    (readRatingFromMetadata disabledWorld false (.error "boom") =
      (disabledWorld, none)) ∧
    ((writeRatingToMetadata disabledWorld "/photo.jpg" 3 false false
        (.ok ())).1.files = disabledWorld.files) ∧
    ((runMetadataOp disabledWorld (.read false (.ok ⟨.absent, .absent,
        .absent, .absent⟩))).state.metadataEnabled = false) ∧
    ((disableMetadata metadataStartState).metadataEnabled = false ∧
      (disableMetadata metadataStartState).exiftoolAlive = false) := by
  refine ⟨metadata_latch_spec.2.1 disabledWorld false (.error "boom") rfl,
    metadata_latch_spec.2.2.1 disabledWorld "/photo.jpg" 3 false false (.ok ()) rfl,
    metadata_latch_spec.1 disabledWorld _ rfl,
    metadata_latch_spec.2.2.2.2 metadataStartState rfl⟩

/-- Clamping an integer rating already in [0,5] is the identity. -/
theorem clampRating_intCast (r : ℤ) (h0 : 0 ≤ r) (h5 : r ≤ 5) :
    clampRating (r : ℚ) = r := by
  unfold clampRating jsRound
  have hf : ⌊(r : ℚ) + 1/2⌋ = r := by
    rw [Int.floor_eq_iff]
    constructor
    · linarith
    · linarith
  rw [hf, max_eq_right h0, min_eq_right h5]

/-- C5: read normalization divides finite values above 5 by 20, rounds
half-up and clamps into [0,5]; values at most 5 are rounded and clamped
the same way; absent or unparseable values normalize to null, not zero;
and a successful write sets the `RatingPercent` field to exactly the
rating times 20 alongside the 0-5 `Rating` field. -/
theorem rating_normalization_spec :
    (∀ q : ℚ, 5 < q → coerceRating (.numFinite q) =
      some (min 5 (max 0 (Int.floor (q / 20 + 1/2))))) ∧
    (∀ q : ℚ, q ≤ 5 → coerceRating (.numFinite q) =
      some (min 5 (max 0 (Int.floor (q + 1/2))))) ∧
    (∀ (v : RawTagValue) (r : ℤ), coerceRating v = some r → 0 ≤ r ∧ r ≤ 5) ∧
    (coerceRating .absent = none ∧ coerceRating .numNonFinite = none ∧
      coerceRating .strOther = none ∧ coerceRating .otherType = none) ∧
    (∀ q : ℚ, coerceRating (.strFinite q) = coerceRating (.numFinite q)) ∧
    (∀ (w : MetadataWorld) (p : String) (r : ℤ), 0 ≤ r → r ≤ 5 →
      w.state.metadataEnabled = true →
      (writeRatingToMetadata w p (r : ℚ) false false (.ok ())).1.files p =
        some ⟨r, r * 20⟩) := by
  refine ⟨?_, ?_, ?_, ⟨rfl, rfl, rfl, rfl⟩, fun q => rfl, ?_⟩
  · intro q hq
    simp [coerceRating, clampRating, jsRound, hq]
  · intro q hq
    simp [coerceRating, clampRating, jsRound, not_lt.mpr hq]
  · intro v r hv
    have hb : ∀ x : ℚ, 0 ≤ clampRating x ∧ clampRating x ≤ 5 := by
      intro x
      unfold clampRating
      omega
    cases v with
    | numFinite q =>
      simp only [coerceRating, Option.some.injEq] at hv
      subst hv
      rcases lt_or_le 5 q with h | h
      · rw [if_pos h]
        exact hb _
      · rw [if_neg (not_lt.mpr h)]
        exact hb _
    | strFinite q =>
      simp only [coerceRating, Option.some.injEq] at hv
      subst hv
      rcases lt_or_le 5 q with h | h
      · rw [if_pos h]
        exact hb _
      · rw [if_neg (not_lt.mpr h)]
        exact hb _
    | numNonFinite => simp [coerceRating] at hv
    | strOther => simp [coerceRating] at hv
    | absent => simp [coerceRating] at hv
    | otherType => simp [coerceRating] at hv
  · intro w p r h0 h5 hen
    by_cases halive : w.state.exiftoolAlive <;>
      simp [writeRatingToMetadata, ensureExifTool, hen, halive,
        clampRating_intCast r h0 h5]

/-- Witness for C5: percentage 80 reads back as 4 stars, 3 reads as 3,
and a concrete write of rating 4 lands Rating 4 / RatingPercent 80. -/
theorem rating_normalization_spec_witness :
    ((5:ℚ) < 80 ∧ coerceRating (.numFinite 80) =
      some (min 5 (max 0 (Int.floor ((80:ℚ) / 20 + 1/2))))) ∧
    ((3:ℚ) ≤ 5 ∧ coerceRating (.numFinite 3) =
      some (min 5 (max 0 (Int.floor ((3:ℚ) + 1/2))))) ∧
    ((writeRatingToMetadata enabledWorld "/photo.jpg" ((4:ℤ) : ℚ) false false
        (.ok ())).1.files "/photo.jpg" = some ⟨4, 4 * 20⟩) := by
  refine ⟨⟨by norm_num, rating_normalization_spec.1 80 (by norm_num)⟩,
    ⟨by norm_num, rating_normalization_spec.2.1 3 (by norm_num)⟩,
    rating_normalization_spec.2.2.2.2.2 enabledWorld "/photo.jpg" 4
      (by norm_num) (by norm_num) rfl⟩

/-! ### Thumbnail pipeline (index.ts) -/

/-- `ThumbnailJob` (index.ts lines 773-778). -/
structure ThumbnailJob where
  filePath : String
  basePath : String
  retinaPath : String
  sourceModifiedAt : Int
deriving Repr, DecidableEq

/-- Base rendition width (index.ts). -/
def THUMBNAIL_BASE_WIDTH : Nat := 320

/-- Retina rendition width (index.ts). -/
def THUMBNAIL_RETINA_WIDTH : Nat := 480

/-- Worker-pool size of the thumbnail queue (index.ts). -/
def THUMBNAIL_JOB_CONCURRENCY : Nat := 2

/-- Module state of the thumbnail pipeline: the FIFO `thumbnailQueue`,
the `enqueuedThumbnailTargets` dedup set keyed by base cache path, and
the list of jobs currently executing (`activeThumbnailJobs` is its
length). -/
structure SchedulerState where
  thumbnailQueue : List ThumbnailJob
  enqueuedTargets : List String
  running : List ThumbnailJob
deriving Repr, DecidableEq

/-- Pipeline state at process start. -/
def emptySchedulerState : SchedulerState := ⟨[], [], []⟩

/-- The while loop of `processThumbnailQueue` (index.ts lines 1038-1058):
while a worker slot is free and the queue is non-empty, shift the front
job off the queue and start running it. -/
def drainQueue (queue : List ThumbnailJob) (targets : List String)
    (running : List ThumbnailJob) : SchedulerState :=
  match queue with
  | [] => ⟨[], targets, running⟩
  | job :: rest =>
    if running.length < THUMBNAIL_JOB_CONCURRENCY then
      drainQueue rest targets (running ++ [job])
    else ⟨job :: rest, targets, running⟩

/-- `processThumbnailQueue` (index.ts lines 1038-1058). -/
def processThumbnailQueue (s : SchedulerState) : SchedulerState :=
  drainQueue s.thumbnailQueue s.enqueuedTargets s.running

/-- `scheduleThumbnailGeneration(job)` (index.ts lines 1029-1036):
no-op when the base cache path is already in the dedup set, else record
it, push the job, and pump the queue. -/
def scheduleThumbnailGeneration (s : SchedulerState) (job : ThumbnailJob) :
    SchedulerState :=
  if job.basePath ∈ s.enqueuedTargets then s
  else processThumbnailQueue
    ⟨s.thumbnailQueue ++ [job], job.basePath :: s.enqueuedTargets, s.running⟩

/-- The `.finally` continuation of a started job (index.ts lines
1052-1056): drop the dedup key, free the worker slot, and pump the
queue. -/
def completeThumbnailJob (s : SchedulerState) (job : ThumbnailJob) :
    SchedulerState :=
  processThumbnailQueue
    ⟨s.thumbnailQueue, s.enqueuedTargets.erase job.basePath,
      s.running.erase job⟩

/-- Thumbnail cache path construction of `resolveThumbnailState`
(index.ts lines 1008-1027); the sha1 hex digest of the source path is
kept as an uninterpreted function of the path. -/
structure ThumbEnv where
  thumbnailDir : String
  sha1Hex : String → String

/-- Base rendition cache path. -/
def thumbBasePath (env : ThumbEnv) (filePath : String) : String :=
  env.thumbnailDir ++ "/" ++ env.sha1Hex filePath ++ "-w" ++
    toString THUMBNAIL_BASE_WIDTH ++ ".webp"

/-- Retina rendition cache path. -/
def thumbRetinaPath (env : ThumbEnv) (filePath : String) : String :=
  env.thumbnailDir ++ "/" ++ env.sha1Hex filePath ++ "-w" ++
    toString THUMBNAIL_RETINA_WIDTH ++ ".webp"

/-- Result of `resolveThumbnailState`. -/
structure ThumbnailFreshState where
  basePath : String
  retinaPath : String
  baseFresh : Bool
  retinaFresh : Bool
deriving Repr, DecidableEq

/-- `resolveThumbnailState(filePath, sourceModifiedAt)` (index.ts lines
1008-1027): compute both rendition paths and check each one's freshness
independently (`isThumbnailFresh` delegates to `isCacheEntryFresh`). -/
def resolveThumbnailState (env : ThumbEnv) (fs : FS) (filePath : String)
    (sourceModifiedAt : Int) : ThumbnailFreshState :=
  let basePath := thumbBasePath env filePath
  let retinaPath := thumbRetinaPath env filePath
  ⟨basePath, retinaPath, isCacheEntryFresh fs basePath sourceModifiedAt,
    isCacheEntryFresh fs retinaPath sourceModifiedAt⟩

/-- The freshness-gated scheduling step of `collectPhotos` (index.ts
lines 1254-1264): enqueue a job only when at least one rendition is
stale. -/
def scheduleIfStale (env : ThumbEnv) (fs : FS) (s : SchedulerState)
    (filePath : String) (sourceModifiedAt : Int) : SchedulerState :=
  let ts := resolveThumbnailState env fs filePath sourceModifiedAt
  if !ts.baseFresh || !ts.retinaFresh then
    scheduleThumbnailGeneration s
      ⟨filePath, ts.basePath, ts.retinaPath, sourceModifiedAt⟩
  else s

/-- Number of queued-or-running jobs whose base cache path is `b`. -/
def jobsFor (s : SchedulerState) (b : String) : Nat :=
  ((s.thumbnailQueue ++ s.running).filter (fun j => j.basePath = b)).length

/-- Whether some queued-or-running job has base cache path `b`. -/
def hasJobFor (s : SchedulerState) (b : String) : Bool :=
  (s.thumbnailQueue ++ s.running).any (fun j => decide (j.basePath = b))

/-- Dedup-set invariant: `enqueuedThumbnailTargets` holds exactly the
base cache paths of queued-or-running jobs. -/
def targetsInvariant (s : SchedulerState) : Prop :=
  ∀ b, b ∈ s.enqueuedTargets ↔ hasJobFor s b = true

/-- Draining the queue does not touch the dedup set. -/
theorem drainQueue_targets (q : List ThumbnailJob) (t : List String)
    (r : List ThumbnailJob) : (drainQueue q t r).enqueuedTargets = t := by
  induction q generalizing r with
  | nil => rfl
  | cons job rest ih =>
    by_cases h : r.length < THUMBNAIL_JOB_CONCURRENCY
    · simp only [drainQueue, if_pos h]
      exact ih _
    · simp only [drainQueue, if_neg h]

/-- Draining preserves the multiset of queued-or-running jobs, counted
per base cache path. -/
theorem drainQueue_jobsFor (q : List ThumbnailJob) (t : List String)
    (r : List ThumbnailJob) (b : String) :
    jobsFor (drainQueue q t r) b =
      ((q ++ r).filter (fun j => j.basePath = b)).length := by
  induction q generalizing r with
  | nil => simp [drainQueue, jobsFor]
  | cons job rest ih =>
    by_cases h : r.length < THUMBNAIL_JOB_CONCURRENCY
    · simp only [drainQueue, if_pos h]
      rw [ih]
      by_cases hb : job.basePath = b <;>
        (simp [List.filter_append, hb]; all_goals omega)
    · simp only [drainQueue, if_neg h]
      simp [jobsFor]

/-- Draining never grows the worker pool beyond its capacity (or beyond
its starting size when that already exceeds capacity). -/
theorem drainQueue_running_le (q : List ThumbnailJob) (t : List String)
    (r : List ThumbnailJob) :
    (drainQueue q t r).running.length ≤
      max r.length THUMBNAIL_JOB_CONCURRENCY := by
  induction q generalizing r with
  | nil => exact le_max_left _ _
  | cons job rest ih =>
    by_cases h : r.length < THUMBNAIL_JOB_CONCURRENCY
    · simp only [drainQueue, if_pos h]
      have h2 := ih (r ++ [job])
      simp only [List.length_append, List.length_cons, List.length_nil] at h2
      omega
    · simp only [drainQueue, if_neg h]
      exact le_max_left _ _

/-- FIFO: draining moves exactly a prefix of the queue, in order, onto
the end of the running pool. -/
theorem drainQueue_take_drop (q : List ThumbnailJob) (t : List String)
    (r : List ThumbnailJob) :
    ∃ k, drainQueue q t r = ⟨q.drop k, t, r ++ q.take k⟩ := by
  induction q generalizing r with
  | nil => exact ⟨0, by simp [drainQueue]⟩
  | cons job rest ih =>
    by_cases h : r.length < THUMBNAIL_JOB_CONCURRENCY
    · obtain ⟨k, hk⟩ := ih (r ++ [job])
      refine ⟨k + 1, ?_⟩
      simp only [drainQueue, if_pos h]
      rw [hk]
      simp [List.drop_succ_cons, List.take_succ_cons]
    · exact ⟨0, by simp [drainQueue, if_neg h]⟩

/-! ### Claim C6 -/

/-- C6: scheduling enqueues a thumbnail job iff at least one of the two
renditions is stale and no queued-or-running job already has the same
base cache path; when both renditions are fresh nothing is enqueued, and
a duplicate base path is a no-op. -/
theorem scheduleIfStale_spec (env : ThumbEnv) (fs : FS) (s : SchedulerState)
    (filePath : String) (t : Int) (hinv : targetsInvariant s) :
    ((isCacheEntryFresh fs (thumbBasePath env filePath) t = false ∨
        isCacheEntryFresh fs (thumbRetinaPath env filePath) t = false) ∧
      hasJobFor s (thumbBasePath env filePath) = false →
      jobsFor (scheduleIfStale env fs s filePath t)
          (thumbBasePath env filePath) =
        jobsFor s (thumbBasePath env filePath) + 1) ∧
    (isCacheEntryFresh fs (thumbBasePath env filePath) t = true ∧
      isCacheEntryFresh fs (thumbRetinaPath env filePath) t = true →
      scheduleIfStale env fs s filePath t = s) ∧
    (hasJobFor s (thumbBasePath env filePath) = true →
      scheduleIfStale env fs s filePath t = s) := by
  refine ⟨?_, ?_, ?_⟩
  · rintro ⟨hstale, hnodup⟩
    have hnotin : thumbBasePath env filePath ∉ s.enqueuedTargets := by
      intro hmem
      rw [hinv (thumbBasePath env filePath)] at hmem
      rw [hmem] at hnodup
      cases hnodup
    have hcond : (!isCacheEntryFresh fs (thumbBasePath env filePath) t ||
        !isCacheEntryFresh fs (thumbRetinaPath env filePath) t) = true := by
      rcases hstale with h | h <;> simp [h]
    unfold scheduleIfStale resolveThumbnailState
    simp only [hcond, if_true, Bool.or_eq_true] at *
    unfold scheduleThumbnailGeneration
    rw [if_neg hnotin]
    unfold processThumbnailQueue
    rw [drainQueue_jobsFor]
    unfold jobsFor
    simp [List.filter_append]
    omega
  · rintro ⟨hbase, hretina⟩
    unfold scheduleIfStale resolveThumbnailState
    simp [hbase, hretina]
  · intro hdup
    have hin : thumbBasePath env filePath ∈ s.enqueuedTargets :=
      (hinv (thumbBasePath env filePath)).mpr hdup
    unfold scheduleIfStale resolveThumbnailState
    by_cases hcond : (!isCacheEntryFresh fs (thumbBasePath env filePath) t ||
        !isCacheEntryFresh fs (thumbRetinaPath env filePath) t) = true
    · simp only [hcond, if_true]
      unfold scheduleThumbnailGeneration
      rw [if_pos hin]
    · simp only [Bool.not_eq_true] at hcond
      simp [hcond]

/-- Hashing environment used by concrete witnesses (digest abstracted as
the identity on paths). -/
def envW : ThumbEnv := ⟨"/thumbs", fun p => p⟩

/-- Filesystem on which every stat fails: every rendition is stale. -/
def fsStale : FS := fun _ => none

/-- Witness for C6: on an empty pipeline with a fully stale cache, one
job for the photo's base cache path is enqueued. -/
theorem scheduleIfStale_spec_witness :
    jobsFor (scheduleIfStale envW fsStale emptySchedulerState "/pic.jpg" 10)
        (thumbBasePath envW "/pic.jpg") =
      jobsFor emptySchedulerState (thumbBasePath envW "/pic.jpg") + 1 := by
  have hinv : targetsInvariant emptySchedulerState := by
    intro b
    simp [emptySchedulerState, hasJobFor]
  exact (scheduleIfStale_spec envW fsStale emptySchedulerState "/pic.jpg" 10
    hinv).1 ⟨Or.inl rfl, rfl⟩

/-! ### Claim C7 -/

/-- External events driving the thumbnail pipeline: a schedule request
and the completion (success or failure) of a running job. -/
inductive SchedulerEvent
  | schedule (job : ThumbnailJob)
  | complete (job : ThumbnailJob)
deriving Repr, DecidableEq

/-- Effect of one event on the pipeline state. -/
def schedulerStep (s : SchedulerState) : SchedulerEvent → SchedulerState
  | .schedule job => scheduleThumbnailGeneration s job
  | .complete job => completeThumbnailJob s job

/-- Pipeline state reached from process start by a sequence of events. -/
def runScheduler (events : List SchedulerEvent) : SchedulerState :=
  events.foldl schedulerStep emptySchedulerState

/-- One step keeps the worker pool within its capacity. -/
theorem schedulerStep_running_le (s : SchedulerState) (e : SchedulerEvent)
    (h : s.running.length ≤ THUMBNAIL_JOB_CONCURRENCY) :
    (schedulerStep s e).running.length ≤ THUMBNAIL_JOB_CONCURRENCY := by
  cases e with
  | schedule job =>
    simp only [schedulerStep]
    unfold scheduleThumbnailGeneration
    by_cases hmem : job.basePath ∈ s.enqueuedTargets
    · rw [if_pos hmem]
      exact h
    · rw [if_neg hmem]
      unfold processThumbnailQueue
      dsimp only
      have h2 := drainQueue_running_le (s.thumbnailQueue ++ [job])
        (job.basePath :: s.enqueuedTargets) s.running
      omega
  | complete job =>
    simp only [schedulerStep]
    unfold completeThumbnailJob processThumbnailQueue
    dsimp only
    have h2 := drainQueue_running_le s.thumbnailQueue
      (s.enqueuedTargets.erase job.basePath) (s.running.erase job)
    have h3 : (s.running.erase job).length ≤ s.running.length :=
      (List.erase_sublist job s.running).length_le
    omega

/-- Reachability version of the capacity bound. -/
theorem foldl_schedulerStep_running_le (events : List SchedulerEvent)
    (s : SchedulerState) (hs : s.running.length ≤ THUMBNAIL_JOB_CONCURRENCY) :
    (events.foldl schedulerStep s).running.length ≤
      THUMBNAIL_JOB_CONCURRENCY := by
  induction events generalizing s with
  | nil => simpa using hs
  | cons e rest ih =>
    simp only [List.foldl_cons]
    exact ih _ (schedulerStep_running_le s e hs)

/-- C7: in every reachable pipeline state at most
`THUMBNAIL_JOB_CONCURRENCY` (= 2) jobs execute simultaneously; the queue
is drained strictly FIFO (a prefix moves, in order, to the pool); and a
completion in a reachable state with a non-empty queue frees its slot and
pulls at least the next queued job. -/
theorem thumbnail_concurrency_spec :
    (∀ events : List SchedulerEvent,
      (runScheduler events).running.length ≤ THUMBNAIL_JOB_CONCURRENCY) ∧
    (∀ (q : List ThumbnailJob) (t : List String) (r : List ThumbnailJob),
      ∃ k, drainQueue q t r = ⟨q.drop k, t, r ++ q.take k⟩) ∧
    (∀ (s : SchedulerState) (job : ThumbnailJob),
      s.running.length ≤ THUMBNAIL_JOB_CONCURRENCY → job ∈ s.running →
      s.thumbnailQueue ≠ [] →
      ∃ k, 1 ≤ k ∧ completeThumbnailJob s job =
        ⟨s.thumbnailQueue.drop k, s.enqueuedTargets.erase job.basePath,
          s.running.erase job ++ s.thumbnailQueue.take k⟩) := by
  refine ⟨fun events => foldl_schedulerStep_running_le events
    emptySchedulerState (by simp [emptySchedulerState]),
    drainQueue_take_drop, ?_⟩
  intro s job hlen hmem hq
  obtain ⟨j, rest, hq2⟩ : ∃ j rest, s.thumbnailQueue = j :: rest := by
    cases hqs : s.thumbnailQueue with
    | nil => exact absurd hqs hq
    | cons a b => exact ⟨a, b, rfl⟩
  have hel : (s.running.erase job).length = s.running.length - 1 :=
    List.length_erase_of_mem hmem
  have hpos : 0 < s.running.length := List.length_pos_of_mem hmem
  have hlt : (s.running.erase job).length < THUMBNAIL_JOB_CONCURRENCY := by
    simp only [THUMBNAIL_JOB_CONCURRENCY] at hlen ⊢
    omega
  obtain ⟨k, hk⟩ := drainQueue_take_drop rest
    (s.enqueuedTargets.erase job.basePath) (s.running.erase job ++ [j])
  refine ⟨k + 1, by omega, ?_⟩
  unfold completeThumbnailJob processThumbnailQueue
  rw [hq2]
  simp only [drainQueue, if_pos hlt]
  rw [hk]
  simp [List.drop_succ_cons, List.take_succ_cons]

/-- Concrete jobs for the C7 witness. -/
def jobA : ThumbnailJob := ⟨"/a.jpg", "/t/a-w320.webp", "/t/a-w480.webp", 0⟩

/-- Second concrete job. -/
def jobB : ThumbnailJob := ⟨"/b.jpg", "/t/b-w320.webp", "/t/b-w480.webp", 0⟩

/-- Third concrete job. -/
def jobC : ThumbnailJob := ⟨"/c.jpg", "/t/c-w320.webp", "/t/c-w480.webp", 0⟩

/-- A full pool (two running jobs) with one queued job. -/
def busyState : SchedulerState :=
  ⟨[jobC], ["/t/a-w320.webp", "/t/b-w320.webp", "/t/c-w320.webp"],
    [jobA, jobB]⟩

/-- Witness for C7: a concrete three-schedule run stays within capacity,
and completing a job in a full pool with a queued job pulls the next
one. -/
theorem thumbnail_concurrency_spec_witness :
    ((runScheduler [.schedule jobA, .schedule jobB,
        .schedule jobC]).running.length ≤ THUMBNAIL_JOB_CONCURRENCY) ∧
    (∃ k, 1 ≤ k ∧ completeThumbnailJob busyState jobA =
      ⟨busyState.thumbnailQueue.drop k,
        busyState.enqueuedTargets.erase jobA.basePath,
        busyState.running.erase jobA ++ busyState.thumbnailQueue.take k⟩) := by
  refine ⟨thumbnail_concurrency_spec.1 _,
    thumbnail_concurrency_spec.2.2 busyState jobA (by decide) (by decide)
      (by decide)⟩

/-! ### TranscodeCache (index.ts, ensureTranscodedMediaAsset) -/

/-- Transcode cache target path (index.ts lines 671-673):
content-addressed by the sha1 digest of the source path plus the rule's
target extension; the digest is kept as an uninterpreted function. -/
def mediaCachePath (mediaCacheDir : String) (sha1Hex : String → String)
    (filePath : String) (extension : String) : String :=
  mediaCacheDir ++ "/" ++ sha1Hex filePath ++ "." ++ extension

/-- Outcome of one underlying conversion execution: success writes a
fresh cache entry at the target path, failure leaves the cache stale
(any partial output is unlinked). -/
inductive ConvOutcome
  | success
  | failure
deriving Repr, DecidableEq

/-- State shared by concurrent `ensureTranscodedMediaAsset` calls for one
target path: whether the cache entry is fresh, whether a conversion task
is registered in `mediaTranscodeTasks`, and an instrumentation counter of
conversion executions. -/
structure TranscodeWorld where
  cacheFresh : Bool
  inFlight : Bool
  conversions : Nat
deriving Repr, DecidableEq

/-- How a caller leaves the entry section of the function. -/
inductive EnsureEntry
  | retHit
  | awaitExisting
  | startedConversion
deriving Repr, DecidableEq

/-- Entry section of `ensureTranscodedMediaAsset` (index.ts lines
675-689 and 691-755): return at once on a fresh cache entry; await a
conversion already registered in `mediaTranscodeTasks`; otherwise start a
new conversion task and register it. -/
def ensureEnter (w : TranscodeWorld) : TranscodeWorld × EnsureEntry :=
  if w.cacheFresh then (w, .retHit)
  else if w.inFlight then (w, .awaitExisting)
  else (⟨w.cacheFresh, true, w.conversions + 1⟩, .startedConversion)

/-- Settlement of a registered conversion task (the async block, index.ts
lines 691-760): success leaves a fresh cache entry; failure unlinks any
partial output, so the cache stays stale; the `finally` removes the map
entry either way. -/
def conversionSettle (w : TranscodeWorld) (out : ConvOutcome) :
    TranscodeWorld :=
  match out with
  | .success => ⟨true, false, w.conversions⟩
  | .failure => ⟨false, false, w.conversions⟩

/-- The conversion owner's continuation after `await conversionTask`
(index.ts lines 756-766): a task failure propagates; on success the final
freshness re-check gates the returned target path. -/
def ensureOwnerFinish (w : TranscodeWorld) (out : ConvOutcome)
    (target : String) : Option String :=
  match out with
  | .success => if w.cacheFresh then some target else none
  | .failure => none

/-- What each of two concurrent `ensure` calls for the same target
produced: the conversion execution count and each caller's result
(`none` models a propagated error). -/
structure EnsureResult where
  conversions : Nat
  resultA : Option String
  resultB : Option String
deriving Repr, DecidableEq

/-- Two concurrent `ensureTranscodedMediaAsset` calls for the same target
path (index.ts lines 666-767), under the schedule the spec describes: the
cache starts stale, caller A registers its conversion first, and caller B
reaches the `mediaTranscodeTasks` lookup while A's task is registered, so
B awaits it (lines 679-689).  After the await B re-checks freshness once:
a hit returns the target path; otherwise B falls through and runs its own
conversion (the code comment says a new attempt will run below). -/
def ensureTwoCallers (target : String) (outA outB : ConvOutcome) :
    EnsureResult :=
  let w0 : TranscodeWorld := ⟨false, false, 0⟩
  let a1 := ensureEnter w0
  let b1 := ensureEnter a1.1
  let w3 := conversionSettle b1.1 outA
  let resA := ensureOwnerFinish w3 outA target
  if w3.cacheFresh then ⟨w3.conversions, resA, some target⟩
  else
    let b2 := ensureEnter w3
    let w5 := conversionSettle b2.1 outB
    ⟨w5.conversions, resA, ensureOwnerFinish w5 outB target⟩

/-- C8 counterexample: with the shared conversion failing and the
waiter's own subsequent conversion succeeding, two conversions execute
(not exactly one), caller A propagates an error while caller B gets the
path (so not all callers receive the same result), and the waiter's
stale re-check is followed by a new conversion attempt, not by error
propagation. -/
theorem ensure_single_flight_counterexample :
    ensureTwoCallers
        (mediaCachePath "/media-cache" (fun p => p) "/x.heic" "jpg")
        .failure .success =
      ⟨2, none,
        some (mediaCachePath "/media-cache" (fun p => p) "/x.heic" "jpg")⟩ ∧
    (ensureTwoCallers
        (mediaCachePath "/media-cache" (fun p => p) "/x.heic" "jpg")
        .failure .success).conversions ≠ 1 := by
  exact ⟨rfl, by decide⟩

/-- C8 (amended): when the later caller awaits the registered conversion
and that conversion succeeds, exactly one conversion executes and both
callers receive the same cached path; when the shared conversion fails,
the waiter re-checks freshness once and, still stale, runs its own
conversion (a second execution), receiving the path if that attempt
succeeds and propagating an error only when it also fails. -/
theorem ensure_single_flight_spec (target : String) (outB : ConvOutcome) :
    (ensureTwoCallers target .success outB =
      ⟨1, some target, some target⟩) ∧
    ((ensureTwoCallers target .failure outB).conversions = 2) ∧
    ((ensureTwoCallers target .failure .success).resultB = some target) ∧
    ((ensureTwoCallers target .failure .failure).resultB = none) := by
  refine ⟨rfl, ?_, rfl, rfl⟩
  cases outB <;> rfl

/-! ### Directory load ratings map (loadPhotoCollectionFromDirectory) -/

/-- The `PhotoMeta` fields entering the ratings-map computation of
`loadPhotoCollectionFromDirectory`; the name/url/size fields play no role
in it and are omitted. -/
structure PhotoMeta where
  id : String
  modifiedAt : Int
deriving Repr, DecidableEq

/-- One iteration of the photo loop of `loadPhotoCollectionFromDirectory`
(index.ts lines 1325-1342): a cached entry whose `sourceModifiedAt`
matches the file's current mtime contributes its rating (when positive)
and needs no refresh; any other photo is queued for background metadata
reconciliation, still contributing its cached rating when positive. -/
def ratingsLoopStep (cachedRatings : RatingsDb)
    (acc : List (String × ℚ) × List PhotoMeta) (photo : PhotoMeta) :
    List (String × ℚ) × List PhotoMeta :=
  match cachedRatings photo.id with
  | some cached =>
    match cached.sourceModifiedAt with
    | some m =>
      if m = photo.modifiedAt then
        (if cached.rating > 0 then acc.1 ++ [(photo.id, cached.rating)]
          else acc.1, acc.2)
      else
        (if cached.rating > 0 then acc.1 ++ [(photo.id, cached.rating)]
          else acc.1, acc.2 ++ [photo])
    | none =>
      (if cached.rating > 0 then acc.1 ++ [(photo.id, cached.rating)]
        else acc.1, acc.2 ++ [photo])
  | none => (acc.1, acc.2 ++ [photo])

/-- The ratings map (as an association list) and needs-refresh list
computed by `loadPhotoCollectionFromDirectory` (index.ts lines
1321-1346). -/
def buildRatingsPayload (cachedRatings : RatingsDb)
    (photos : List PhotoMeta) : List (String × ℚ) × List PhotoMeta :=
  photos.foldl (ratingsLoopStep cachedRatings) ([], [])

/-- A loop step either leaves the ratings list alone or appends the
photo's positively-rated cached entry. -/
theorem ratingsLoopStep_fst (cachedRatings : RatingsDb)
    (acc : List (String × ℚ) × List PhotoMeta) (photo : PhotoMeta) :
    (ratingsLoopStep cachedRatings acc photo).1 = acc.1 ∨
    ∃ e, cachedRatings photo.id = some e ∧ e.rating > 0 ∧
      (ratingsLoopStep cachedRatings acc photo).1 =
        acc.1 ++ [(photo.id, e.rating)] := by
  unfold ratingsLoopStep
  cases hc : cachedRatings photo.id with
  | none => exact Or.inl rfl
  | some cached =>
    cases hm : cached.sourceModifiedAt with
    | some m =>
      by_cases hmt : m = photo.modifiedAt
      · by_cases hr : cached.rating > 0
        · exact Or.inr ⟨cached, rfl, hr, by simp [hm, hmt, hr]⟩
        · exact Or.inl (by simp [hm, hmt, hr])
      · by_cases hr : cached.rating > 0
        · exact Or.inr ⟨cached, rfl, hr, by simp [hm, hmt, hr]⟩
        · exact Or.inl (by simp [hm, hmt, hr])
    | none =>
      by_cases hr : cached.rating > 0
      · exact Or.inr ⟨cached, rfl, hr, by simp [hm, hr]⟩
      · exact Or.inl (by simp [hm, hr])

/-- Folding the loop only ever adds positively-rated cached entries to
the ratings list. -/
theorem foldl_ratingsLoop_mem (cachedRatings : RatingsDb)
    (photos : List PhotoMeta) (acc : List (String × ℚ) × List PhotoMeta)
    (id : String) (r : ℚ)
    (hmem : (id, r) ∈ (photos.foldl (ratingsLoopStep cachedRatings) acc).1) :
    (id, r) ∈ acc.1 ∨
      ∃ e, cachedRatings id = some e ∧ e.rating > 0 ∧ r = e.rating := by
  induction photos generalizing acc with
  | nil => exact Or.inl hmem
  | cons photo rest ih =>
    simp only [List.foldl_cons] at hmem
    rcases ih _ hmem with hin | hex
    · rcases ratingsLoopStep_fst cachedRatings acc photo with heq | ⟨e, he, hrpos, heq⟩
      · rw [heq] at hin
        exact Or.inl hin
      · rw [heq] at hin
        rcases List.mem_append.mp hin with h | h
        · exact Or.inl h
        · have h2 := List.mem_singleton.mp h
          have hid : id = photo.id := congrArg Prod.fst h2
          have hrr : r = e.rating := congrArg Prod.snd h2
          refine Or.inr ⟨e, ?_, hrpos, hrr⟩
          rw [hid]
          exact he
    · exact Or.inr hex

/-- C10: the ratings map returned by a directory load contains an id only
when that photo has a cached entry with rating strictly greater than 0
(and then carries exactly that rating); zero-rated and uncached photos
never appear, whether or not they are queued for background metadata
reconciliation. -/
theorem ratings_map_positive_spec (cachedRatings : RatingsDb)
    (photos : List PhotoMeta) (id : String) (r : ℚ)
    (hmem : (id, r) ∈ (buildRatingsPayload cachedRatings photos).1) :
    ∃ e, cachedRatings id = some e ∧ e.rating > 0 ∧ r = e.rating := by
  rcases foldl_ratingsLoop_mem cachedRatings photos ([], []) id r hmem with hin | hex
  · simp at hin
  · exact hex

/-- Cached table for the C10 witness: one positively rated, verified
photo. -/
def cachedW : RatingsDb :=
  upsertRating emptyRatingsDb "/d/a.jpg" 3 (some 50) 100

/-- Photos for the C10 witness: the rated photo (mtime matching) and an
uncached one (queued for refresh). -/
def photosW : List PhotoMeta := [⟨"/d/a.jpg", 50⟩, ⟨"/d/b.jpg", 60⟩]

/-- Witness for C10: the one entry the concrete load returns comes from a
cached entry with positive rating. -/
theorem ratings_map_positive_spec_witness :
    ∃ e, cachedW "/d/a.jpg" = some e ∧ e.rating > 0 ∧ (3:ℚ) = e.rating := by
  exact ratings_map_positive_spec cachedW photosW "/d/a.jpg" 3 (by decide)
